import Mathlib

/-!
# A verification model of the rubberband-web realtime streaming core

This file embeds the streaming-buffer core of the repository in Lean:

* `RubberBandWeb.RingBuffer` — the per-channel ring buffer used by the kernel
  (the C++ class stores one `RubberBand::RingBuffer<float>` per channel; the
  ring-buffer code itself lives in the external RubberBand library, so it is
  modelled from the spec's §4.1 contract).
* `RubberBandWeb.Stretcher` — the external `RubberBandStretcher` black box,
  modelled from the spec's §6 contract (`process` / `available` / `retrieve` /
  `reset` / ratio setters / latency getters).  Its unpredictable output is an
  explicit oracle argument where needed.
* `RubberBandWeb.Kernel.RealtimeRubberBand` — the C++ class
  `RealtimeRubberBand` from `src/wasm/src/rubberband/RealtimeRubberBand.cpp`,
  translated function by function.
* `RubberBandWeb.Worklet.RealtimeRubberBand` — the TypeScript wrapper class
  `RealtimeRubberBand` from `src/src/worklet/RealtimeRubberBand.ts`.

Calls into the external engine are additionally recorded as `EngineCall`
traces so that protocol claims (ordering of fetch / reset / ratio
application) are stated about observable call sequences.

Samples are modelled as rationals (`ℚ`), sample counts as naturals.
-/

namespace RubberBandWeb

/-- One observable call into the external `RubberBandStretcher` engine. -/
inductive EngineCall where
  | processCall (sampleCount : ℕ)
  | availableCall
  | retrieveCall (maxSamples : ℕ)
  | resetCall
  | setMaxProcessSizeCall (n : ℕ)
  | setTimeRatioCall (r : ℚ)
  | setPitchScaleCall (r : ℚ)
  | setFormantScaleCall (r : ℚ)
  | getLatencyCall
  deriving DecidableEq, Repr

/-- `true` exactly on an engine `reset` call. -/
def isReset : EngineCall → Bool
  | .resetCall => true
  | _ => false

/-- Number of engine resets recorded in a trace. -/
def resetsIn (tr : List EngineCall) : ℕ := (tr.filter isReset).length

/-- Modelled from the spec (§4.1): a fixed-capacity single-producer /
single-consumer circular sample queue.  The implementation delegates to the
external `RubberBand::RingBuffer<float>`, whose code is not part of this
repository; the spec's contract is: `write` appends up to the free space and
drops the newest overflow, `read` copies up to `min(count, fill)` samples out.
The queue content is modelled as the list of buffered samples, oldest first. -/
structure RingBuffer where
  capacity : ℕ
  data : List ℚ

/-- Exact count of readable samples (`getReadSpace`). -/
def RingBuffer.readSpace (rb : RingBuffer) : ℕ := rb.data.length

/-- Exact count of free slots (`getWriteSpace`). -/
def RingBuffer.writeSpace (rb : RingBuffer) : ℕ := rb.capacity - rb.data.length

/-- Appends up to `writeSpace` of the given samples, dropping the newest
overflow (spec §4.1 design decision: report-and-drop newest). -/
def RingBuffer.write (rb : RingBuffer) (xs : List ℚ) : RingBuffer :=
  { rb with data := rb.data ++ xs.take rb.writeSpace }

/-- Copies up to `min(count, fill)` samples out, oldest first, and advances
the read cursor; returns the updated buffer and the samples copied. -/
def RingBuffer.read (rb : RingBuffer) (count : ℕ) : RingBuffer × List ℚ :=
  (⟨rb.capacity, rb.data.drop (min count rb.data.length)⟩,
   rb.data.take (min count rb.data.length))

/-- Modelled from the spec (§6): the external `RubberBandStretcher` engine,
an opaque collaborator.  Pending output samples per channel are explicit; the
latency constants `getPreferredStartPad` / `getStartDelay` are ratio-dependent
and modelled as arbitrary functions `padOf` / `delayOf` of the configured
ratios.  `resets` counts `reset()` calls, for the reset-count properties. -/
structure Stretcher where
  channelCount : ℕ
  engineTimeRatio : ℚ
  enginePitchScale : ℚ
  engineFormantScale : ℚ
  engineMaxProcessSize : ℕ
  pending : ℕ → List ℚ
  resets : ℕ
  padOf : ℚ → ℚ → ℚ → ℕ
  delayOf : ℚ → ℚ → ℚ → ℕ

/-- `available()`: count of output samples ready to retrieve. -/
def Stretcher.available (st : Stretcher) : ℕ := (st.pending 0).length

/-- `getTimeRatio()`. -/
def Stretcher.getTimeRatio (st : Stretcher) : ℚ := st.engineTimeRatio

/-- `getPitchScale()`. -/
def Stretcher.getPitchScale (st : Stretcher) : ℚ := st.enginePitchScale

/-- `getFormantScale()`. -/
def Stretcher.getFormantScale (st : Stretcher) : ℚ := st.engineFormantScale

/-- `retrieve(scratch, n)`: copies `min(n, available)` samples per channel
into the caller's scratch space and consumes them; returns the new engine
state, the per-channel samples copied, and the actual count. -/
def Stretcher.retrieve (st : Stretcher) (n : ℕ) :
    Stretcher × (ℕ → List ℚ) × ℕ :=
  let actual := min n st.available
  ({ st with pending := fun c => (st.pending c).drop actual },
   fun c => (st.pending c).take actual, actual)

/-- `reset()`: clears all internal state, including buffered output and
(per spec §4.3 step 3) the configured fixed process size. -/
def Stretcher.reset (st : Stretcher) : Stretcher :=
  { st with pending := fun _ => [], engineMaxProcessSize := 0,
            resets := st.resets + 1 }

/-- `setMaxProcessSize(n)` on the engine. -/
def Stretcher.setMaxProcessSize (st : Stretcher) (n : ℕ) : Stretcher :=
  { st with engineMaxProcessSize := n }

/-- `setTimeRatio(r)` on the engine. -/
def Stretcher.setTimeRatio (st : Stretcher) (r : ℚ) : Stretcher :=
  { st with engineTimeRatio := r }

/-- `setPitchScale(r)` on the engine. -/
def Stretcher.setPitchScale (st : Stretcher) (r : ℚ) : Stretcher :=
  { st with enginePitchScale := r }

/-- `setFormantScale(r)` on the engine. -/
def Stretcher.setFormantScale (st : Stretcher) (r : ℚ) : Stretcher :=
  { st with engineFormantScale := r }

/-- `process(channels, n, final)`: streaming submit.  The engine buffers the
input internally and emits an unpredictable number of output samples; the
emission is modelled as the oracle argument `emitted` (per-channel lists of
equal length), appended to the pending output.  The input block itself
disappears into the black box. -/
def Stretcher.process (st : Stretcher) (emitted : ℕ → List ℚ) : Stretcher :=
  { st with pending := fun c => st.pending c ++ emitted c }

/-- `getPreferredStartPad()`: ratio-dependent latency constant. -/
def Stretcher.getPreferredStartPad (st : Stretcher) : ℕ :=
  st.padOf st.engineTimeRatio st.enginePitchScale st.engineFormantScale

/-- `getStartDelay()`: ratio-dependent latency constant. -/
def Stretcher.getStartDelay (st : Stretcher) : ℕ :=
  st.delayOf st.engineTimeRatio st.enginePitchScale st.engineFormantScale

namespace Kernel

/-- The C++ class `RealtimeRubberBand`
(`src/wasm/src/rubberband/RealtimeRubberBand.cpp`): one engine instance, one
ring buffer per channel, the remembered fixed block size
(`max_process_size_`, 0 = unset) and the start-pad / start-delay counters. -/
structure RealtimeRubberBand where
  channelCount : ℕ
  sampleRate : ℕ
  stretcher : Stretcher
  outputBuffer : ℕ → RingBuffer
  startPadSamples : ℕ
  startDelaySamples : ℕ
  maxProcessSize : ℕ

/-- `updateRatio()`: re-queries `getPreferredStartPad` / `getStartDelay`
from the engine into `start_pad_samples_` / `start_delay_samples_`. -/
def updateRatio (s : RealtimeRubberBand) : RealtimeRubberBand :=
  { s with startPadSamples := s.stretcher.getPreferredStartPad,
           startDelaySamples := s.stretcher.getStartDelay }

/-- The body of the constructor after validation: a fresh engine with unit
ratios, empty ring buffers, and `updateRatio()` applied. -/
def mkUnchecked (sampleRate channelCount : ℕ) (bufferSize : ℕ)
    (padOf delayOf : ℚ → ℚ → ℚ → ℕ) : RealtimeRubberBand :=
  updateRatio
    { channelCount := channelCount
      sampleRate := sampleRate
      stretcher :=
        { channelCount := channelCount
          engineTimeRatio := 1
          enginePitchScale := 1
          engineFormantScale := 1
          engineMaxProcessSize := 0
          pending := fun _ => []
          resets := 0
          padOf := padOf
          delayOf := delayOf }
      outputBuffer := fun _ => ⟨bufferSize, []⟩
      startPadSamples := 0
      startDelaySamples := 0
      maxProcessSize := 0 }

/-- The constructor `RealtimeRubberBand(sampleRate, channel_count,
high_quality)`: validates both counts, creates the engine with default
ratios, allocates one ring buffer per channel (the capacity
`kBlockSize_ + kReserve_ + 8192` uses private constants from the header,
which is not part of the sources; the capacity is therefore a parameter
`bufferSize`, on which no claim depends), then calls `updateRatio()`.
The engine's latency functions are the `padOf` / `delayOf` parameters. -/
def mk (sampleRate channelCount : ℤ) (highQuality : Bool) (bufferSize : ℕ)
    (padOf delayOf : ℚ → ℚ → ℚ → ℕ) :
    Except String RealtimeRubberBand :=
  if sampleRate ≤ 0 then
    .error "Sample rate has to be greater than 0"
  else if channelCount ≤ 0 then
    .error "Channel count has to be greater than 0"
  else
    let _ := highQuality   -- selects the engine's option flags (black box)
    .ok (mkUnchecked sampleRate.toNat channelCount.toNat bufferSize
      padOf delayOf)

/-- `getSamplesAvailable()`: read space of channel 0's ring buffer. -/
def getSamplesAvailable (s : RealtimeRubberBand) : ℕ :=
  (s.outputBuffer 0).readSpace

/-- The tail of `fetchProcessed()` after start-delay handling: flag an
overrun when channel 0's write space is `<=` the remaining available count,
retrieve that many samples, and write them into every channel's ring buffer.
Returns the new state, the overrun flag and the engine calls made. -/
def fetchWrite (s : RealtimeRubberBand) (available : ℕ)
    (tr : List EngineCall) : RealtimeRubberBand × Bool × List EngineCall :=
  let overrun := (s.outputBuffer 0).writeSpace ≤ available
  let r := s.stretcher.retrieve available
  ({ s with stretcher := r.1,
            outputBuffer := fun c =>
              if c < s.channelCount then (s.outputBuffer c).write (r.2.1 c)
              else s.outputBuffer c },
   overrun, tr ++ [.retrieveCall available])

/-- `fetchProcessed()`: queries `available()`; if positive, first discards
up to `start_delay_samples_` samples (returning early if the whole burst was
delay), then writes the rest into the ring buffers via `fetchWrite`.
The `Bool` result is the overrun diagnostic (`std::cerr` in the source). -/
def fetchProcessed (s : RealtimeRubberBand) :
    RealtimeRubberBand × Bool × List EngineCall :=
  let available := s.stretcher.available
  let tr : List EngineCall := [.availableCall]
  if 0 < available then
    if 0 < s.startDelaySamples then
      if s.startDelaySamples ≤ available then
        let r := s.stretcher.retrieve s.startDelaySamples
        fetchWrite { s with stretcher := r.1, startDelaySamples := 0 }
          (available - s.startDelaySamples)
          (tr ++ [.retrieveCall s.startDelaySamples])
      else
        let r := s.stretcher.retrieve available
        ({ s with stretcher := r.1,
                  startDelaySamples := s.startDelaySamples - available },
         false, tr ++ [.retrieveCall available])
    else
      fetchWrite s available tr
  else
    (s, false, tr)

/-- `push(input_ptr, sample_size)`: forwards the per-channel input pointers
and `sample_size` to `process` (no validation of `sample_size` against
`max_process_size_` — a source comment documents the fixed-size contract but
the method does not check it), then immediately runs `fetchProcessed`.
`input` is the flat heap the pointers index into; `emitted` is the engine's
output oracle. -/
def push (s : RealtimeRubberBand) (input : ℕ → ℚ) (sampleSize : ℕ)
    (emitted : ℕ → List ℚ) : RealtimeRubberBand × Bool × List EngineCall :=
  let _ := fun c i => input (c * sampleSize + i)   -- arr_to_process[c]
  let r := fetchProcessed { s with stretcher := s.stretcher.process emitted }
  (r.1, r.2.1, .processCall sampleSize :: r.2.2)

/-- The per-channel loop of `pull(output_ptr, sample_size)`: for each channel
in order, if its ring buffer is empty, log an underrun and return early;
otherwise read `min(available, sample_size)` samples into the flat output
heap at offset `channel * sample_size`. -/
def pullChannels (sampleSize : ℕ) :
    List ℕ → (ℕ → RingBuffer) → (ℕ → ℚ) → (ℕ → RingBuffer) × (ℕ → ℚ)
  | [], bufs, heap => (bufs, heap)
  | c :: rest, bufs, heap =>
    let available := (bufs c).readSpace
    if available = 0 then
      (bufs, heap)   -- (!) BUFFER UNDERRUN, early return
    else
      let r := (bufs c).read (min available sampleSize)
      pullChannels sampleSize rest
        (fun i => if i = c then r.1 else bufs i)
        (fun i =>
          if c * sampleSize ≤ i ∧ i < c * sampleSize + r.2.length
          then r.2.getD (i - c * sampleSize) 0 else heap i)

/-- `pull(output_ptr, sample_size)`: runs `pullChannels` over channels
`0, …, channelCount-1` on the flat output heap. -/
def pull (s : RealtimeRubberBand) (heap : ℕ → ℚ) (sampleSize : ℕ) :
    RealtimeRubberBand × (ℕ → ℚ) :=
  let r := pullChannels sampleSize (List.range s.channelCount)
    s.outputBuffer heap
  ({ s with outputBuffer := r.1 }, r.2)

/-- `setMaxProcessSize(size)`: stores the fixed block size in
`max_process_size_` (so it survives resets) and forwards it to the engine. -/
def setMaxProcessSize (s : RealtimeRubberBand) (n : ℕ) :
    RealtimeRubberBand × List EngineCall :=
  ({ s with maxProcessSize := n,
            stretcher := s.stretcher.setMaxProcessSize n },
   [.setMaxProcessSizeCall n])

/-- `setTempo(tempo)`: rejects a non-positive value; otherwise, when the
value differs from the engine's current time ratio: drain via
`fetchProcessed`, `reset()` the engine, re-apply `max_process_size_` if set,
apply the new ratio, and `updateRatio()`.  Equal value: no-op. -/
def setTempo (s : RealtimeRubberBand) (tempo : ℚ) :
    Except String (RealtimeRubberBand × List EngineCall) :=
  if tempo ≤ 0 then
    .error "Tempo has to be greater than 0"
  else if s.stretcher.getTimeRatio ≠ tempo then
    let f := fetchProcessed s
    let st1 := f.1.stretcher.reset
    let mps := if 0 < f.1.maxProcessSize then
        (st1.setMaxProcessSize f.1.maxProcessSize,
         [EngineCall.setMaxProcessSizeCall f.1.maxProcessSize])
      else (st1, [])
    let st2 := mps.1.setTimeRatio tempo
    .ok (updateRatio { f.1 with stretcher := st2 },
         f.2.2 ++ [.resetCall] ++ mps.2 ++
           [.setTimeRatioCall tempo, .getLatencyCall])
  else
    .ok (s, [])

/-- `setPitch(pitch)`: same protocol as `setTempo`, keyed on the engine's
current pitch scale and applying `setPitchScale`. -/
def setPitch (s : RealtimeRubberBand) (pitch : ℚ) :
    Except String (RealtimeRubberBand × List EngineCall) :=
  if pitch ≤ 0 then
    .error "Pitch has to be greater than 0"
  else if s.stretcher.getPitchScale ≠ pitch then
    let f := fetchProcessed s
    let st1 := f.1.stretcher.reset
    let mps := if 0 < f.1.maxProcessSize then
        (st1.setMaxProcessSize f.1.maxProcessSize,
         [EngineCall.setMaxProcessSizeCall f.1.maxProcessSize])
      else (st1, [])
    let st2 := mps.1.setPitchScale pitch
    .ok (updateRatio { f.1 with stretcher := st2 },
         f.2.2 ++ [.resetCall] ++ mps.2 ++
           [.setPitchScaleCall pitch, .getLatencyCall])
  else
    .ok (s, [])

/-- `setFormantScale(scale)`: same protocol, keyed on the engine's current
formant scale. -/
def setFormantScale (s : RealtimeRubberBand) (scale : ℚ) :
    Except String (RealtimeRubberBand × List EngineCall) :=
  if scale ≤ 0 then
    .error "Format scale has to be greater than 0"
  else if s.stretcher.getFormantScale ≠ scale then
    let f := fetchProcessed s
    let st1 := f.1.stretcher.reset
    let mps := if 0 < f.1.maxProcessSize then
        (st1.setMaxProcessSize f.1.maxProcessSize,
         [EngineCall.setMaxProcessSizeCall f.1.maxProcessSize])
      else (st1, [])
    let st2 := mps.1.setFormantScale scale
    .ok (updateRatio { f.1 with stretcher := st2 },
         f.2.2 ++ [.resetCall] ++ mps.2 ++
           [.setFormantScaleCall scale, .getLatencyCall])
  else
    .ok (s, [])

end Kernel

namespace Worklet

/-- `RENDER_QUANTUM_FRAMES` from `src/src/worklet/RealtimeRubberBand.ts`. -/
def RENDER_QUANTUM_FRAMES : ℕ := 128

/-- `RealtimeRubberBandOptions` from the TypeScript wrapper; absent fields
are `none`.  JavaScript truthiness of `0` matters for `tempo`/`pitch`. -/
structure Options where
  highQuality : Option Bool := none
  pitch : Option ℚ := none
  tempo : Option ℚ := none

/-- JavaScript `x || d` for an optional number: `d` when absent or zero. -/
def jsOrQ (x : Option ℚ) (d : ℚ) : ℚ :=
  match x with
  | some v => if v = 0 then d else v
  | none => d

/-- The TypeScript wrapper class `RealtimeRubberBand`
(`src/src/worklet/RealtimeRubberBand.ts`): the kernel instance, the input and
output `HeapArray`s (flat WASM heaps of `RENDER_QUANTUM_FRAMES × channels`
floats; `HeapArray`'s own code is module glue outside the sources, its
channel `c` region modelled from its constructor arguments as offsets
`[c·128, (c+1)·128)`), and the `_tempo` / `_pitch` fields the getters serve. -/
structure RealtimeRubberBand where
  highQuality : Bool
  channelCount : ℕ
  kernel : Kernel.RealtimeRubberBand
  inputHeap : ℕ → ℚ
  outputHeap : ℕ → ℚ
  tempo : ℚ
  pitch : ℚ

/-- The wrapper constructor: builds the kernel (which can fail on
non-positive counts), fixes the block size to `RENDER_QUANTUM_FRAMES`,
defaults `_pitch` / `_tempo` with `|| 1`, and — only for a truthy tempo
different from 1 — passes the reciprocal `1 / tempo` to the kernel's
`setTempo`.  (`_pitch` is stored but the constructor never forwards it.)
Returns the wrapper and the engine calls made. -/
def mk (bufferSize : ℕ) (padOf delayOf : ℚ → ℚ → ℚ → ℕ)
    (sampleRate channelCount : ℤ) (options : Option Options) :
    Except String (RealtimeRubberBand × List EngineCall) := do
  let hq := (options.bind (·.highQuality)).getD false
  let k0 ← Kernel.mk sampleRate channelCount hq bufferSize padOf delayOf
  let r1 := Kernel.setMaxProcessSize k0 RENDER_QUANTUM_FRAMES
  let pitch := jsOrQ (options.bind (·.pitch)) 1
  let tempo := jsOrQ (options.bind (·.tempo)) 1
  let r2 ←
    match options.bind (·.tempo) with
    | some t =>
      if t ≠ 0 ∧ t ≠ 1 then Kernel.setTempo r1.1 (1 / t)
      else pure (r1.1, [])
    | none => pure (r1.1, [])
  .ok ({ highQuality := hq
         channelCount := channelCount.toNat
         kernel := r2.1
         inputHeap := fun _ => 0
         outputHeap := fun _ => 0
         tempo := tempo
         pitch := pitch },
       r1.2 ++ r2.2)

/-- The `timeRatio` getter: returns the stored `_tempo` field. -/
def timeRatio (w : RealtimeRubberBand) : ℚ := w.tempo

/-- The `timeRatio` setter: stores the value in `_tempo`, then passes the
reciprocal `1 / timeRatio` to the kernel's `setTempo`. -/
def setTimeRatio (w : RealtimeRubberBand) (r : ℚ) :
    Except String (RealtimeRubberBand × List EngineCall) :=
  let w1 := { w with tempo := r }
  match Kernel.setTempo w1.kernel (1 / r) with
  | .ok p => .ok ({ w1 with kernel := p.1 }, p.2)
  | .error e => .error e

/-- The `pitchScale` setter: stores the value in `_pitch`, then forwards it
unchanged to the kernel's `setPitch`. -/
def setPitchScale (w : RealtimeRubberBand) (p : ℚ) :
    Except String (RealtimeRubberBand × List EngineCall) :=
  let w1 := { w with pitch := p }
  match Kernel.setPitch w1.kernel p with
  | .ok r => .ok ({ w1 with kernel := r.1 }, r.2)
  | .error e => .error e

/-- The `samplesAvailable` getter: the kernel's `getSamplesAvailable`. -/
def samplesAvailable (w : RealtimeRubberBand) : ℕ :=
  Kernel.getSamplesAvailable w.kernel

/-- `pull(channels)`: with `available` from the kernel and `outputLength`
the first channel's length, pulls `toPull = min(available, outputLength)`
samples through the kernel into the output heap (when positive), then
overwrites the first `toPull` entries of each caller channel from the heap's
channel region and returns the channels; no zero-fill fallback. -/
def pull (w : RealtimeRubberBand) (channels : List (List ℚ)) :
    RealtimeRubberBand × List (List ℚ) :=
  if channels.length = 0 then (w, channels)
  else
    let available := Kernel.getSamplesAvailable w.kernel
    let outputLength := (channels.headD []).length
    let toPull := min available outputLength
    if 0 < toPull then
      let r := Kernel.pull w.kernel w.outputHeap toPull
      ({ w with kernel := r.1, outputHeap := r.2 },
       channels.mapIdx fun c ch =>
         ((List.range toPull).map fun i =>
           r.2 (c * RENDER_QUANTUM_FRAMES + i)) ++ ch.drop toPull)
    else
      (w, channels)

end Worklet

/-! ### Concrete states used by witnesses and counterexamples -/

/-- A concrete engine state: two channels, unit ratios, reset count 0,
pending output `pend` on every channel, latency constants `pad` / `delay`. -/
def mkStretcherEx (pend : List ℚ) (pad delay : ℕ) : Stretcher :=
  { channelCount := 2
    engineTimeRatio := 1
    enginePitchScale := 1
    engineFormantScale := 1
    engineMaxProcessSize := 0
    pending := fun _ => pend
    resets := 0
    padOf := fun _ _ _ => pad
    delayOf := fun _ _ _ => delay }

/-- A concrete kernel session over `mkStretcherEx`: two channels, every ring
buffer with capacity `cap` holding `bufData`, remaining start delay `delay`
and remembered fixed block size `mps`. -/
def mkSessionEx (pend bufData : List ℚ) (cap delay mps : ℕ) :
    Kernel.RealtimeRubberBand :=
  { channelCount := 2
    sampleRate := 48000
    stretcher := mkStretcherEx pend 0 0
    outputBuffer := fun _ => ⟨cap, bufData⟩
    startPadSamples := 0
    startDelaySamples := delay
    maxProcessSize := mps }

/-- A concrete one-channel kernel session whose single ring buffer (capacity
4) holds `bufData`; no start delay, fixed block size 128. -/
def mkKernel1 (bufData : List ℚ) : Kernel.RealtimeRubberBand :=
  { channelCount := 1
    sampleRate := 48000
    stretcher := mkStretcherEx [] 0 0
    outputBuffer := fun _ => ⟨4, bufData⟩
    startPadSamples := 0
    startDelaySamples := 0
    maxProcessSize := 128 }

/-- A concrete wrapper over `mkKernel1` with zeroed heaps and unit ratios. -/
def mkWrapperEx (bufData : List ℚ) : Worklet.RealtimeRubberBand :=
  { highQuality := false
    channelCount := 1
    kernel := mkKernel1 bufData
    inputHeap := fun _ => 0
    outputHeap := fun _ => 0
    tempo := 1
    pitch := 1 }

/-! ## Helper lemmas -/

lemma resetsIn_append (a b : List EngineCall) :
    resetsIn (a ++ b) = resetsIn a + resetsIn b := by
  simp [resetsIn, List.filter_append]

/-- `fetchProcessed` only moves samples: it never touches the configuration
(ratios, fixed block size, latency functions, channel count) nor resets the
engine, and its trace contains no reset call. -/
lemma fetchProcessed_preserves (s : Kernel.RealtimeRubberBand) :
    (Kernel.fetchProcessed s).1.maxProcessSize = s.maxProcessSize ∧
    (Kernel.fetchProcessed s).1.channelCount = s.channelCount ∧
    (Kernel.fetchProcessed s).1.stretcher.engineTimeRatio
      = s.stretcher.engineTimeRatio ∧
    (Kernel.fetchProcessed s).1.stretcher.enginePitchScale
      = s.stretcher.enginePitchScale ∧
    (Kernel.fetchProcessed s).1.stretcher.engineFormantScale
      = s.stretcher.engineFormantScale ∧
    (Kernel.fetchProcessed s).1.stretcher.resets = s.stretcher.resets ∧
    (Kernel.fetchProcessed s).1.stretcher.padOf = s.stretcher.padOf ∧
    (Kernel.fetchProcessed s).1.stretcher.delayOf = s.stretcher.delayOf ∧
    resetsIn (Kernel.fetchProcessed s).2.2 = 0 := by
  by_cases h1 : 0 < s.stretcher.available <;>
  by_cases h2 : 0 < s.startDelaySamples <;>
  by_cases h3 : s.startDelaySamples ≤ s.stretcher.available <;>
  simp [Kernel.fetchProcessed, Kernel.fetchWrite, Stretcher.retrieve,
    resetsIn, isReset, h1, h2, h3]

/-- `setTempo` at the current ratio is the identity with an empty trace. -/
lemma setTempo_noop (s : Kernel.RealtimeRubberBand) (r : ℚ) (hr : 0 < r)
    (heq : s.stretcher.getTimeRatio = r) :
    Kernel.setTempo s r = .ok (s, []) := by
  simp [Kernel.setTempo, if_neg (not_le.mpr hr), heq]

/-- `setPitch` at the current pitch scale is the identity, empty trace. -/
lemma setPitch_noop (s : Kernel.RealtimeRubberBand) (r : ℚ) (hr : 0 < r)
    (heq : s.stretcher.getPitchScale = r) :
    Kernel.setPitch s r = .ok (s, []) := by
  simp [Kernel.setPitch, if_neg (not_le.mpr hr), heq]

/-- `setFormantScale` at the current formant scale is the identity. -/
lemma setFormantScale_noop (s : Kernel.RealtimeRubberBand) (r : ℚ)
    (hr : 0 < r) (heq : s.stretcher.getFormantScale = r) :
    Kernel.setFormantScale s r = .ok (s, []) := by
  simp [Kernel.setFormantScale, if_neg (not_le.mpr hr), heq]

/-- Full description of `setTempo` on a value different from the engine's
current time ratio: it succeeds, its engine-call trace is the drain-fetch
followed by exactly one reset, the conditional block-size re-application, the
ratio application and the latency re-query, and the resulting state carries
the new ratio and latency values recomputed under it. -/
lemma setTempo_apply_of_ne (s : Kernel.RealtimeRubberBand) (r : ℚ)
    (hr : 0 < r) (hne : s.stretcher.getTimeRatio ≠ r) :
    (Kernel.setTempo s r).isOk = true ∧
    ∀ s' tr, Kernel.setTempo s r = .ok (s', tr) →
      tr = (Kernel.fetchProcessed s).2.2 ++ [.resetCall] ++
          (if 0 < s.maxProcessSize then
            [EngineCall.setMaxProcessSizeCall s.maxProcessSize] else []) ++
          [.setTimeRatioCall r, .getLatencyCall] ∧
      resetsIn tr = 1 ∧
      s'.stretcher.resets = s.stretcher.resets + 1 ∧
      (0 < s.maxProcessSize →
        s'.stretcher.engineMaxProcessSize = s.maxProcessSize) ∧
      s'.stretcher.engineTimeRatio = r ∧
      s'.stretcher.enginePitchScale = s.stretcher.enginePitchScale ∧
      s'.stretcher.engineFormantScale = s.stretcher.engineFormantScale ∧
      s'.maxProcessSize = s.maxProcessSize ∧
      s'.startPadSamples = s.stretcher.padOf r s.stretcher.enginePitchScale
        s.stretcher.engineFormantScale ∧
      s'.startDelaySamples = s.stretcher.delayOf r s.stretcher.enginePitchScale
        s.stretcher.engineFormantScale := by
  obtain ⟨hm, hc, ht, hp, hf, hrs, hpad, hdel, hres⟩ := fetchProcessed_preserves s
  have hr0 : ¬ r ≤ 0 := not_le.mpr hr
  constructor
  · simp only [Kernel.setTempo, if_neg hr0, if_pos hne, Except.isOk]
    rfl
  intro s' tr hp'
  simp only [Kernel.setTempo, if_neg hr0, if_pos hne, Except.ok.injEq,
    Prod.mk.injEq] at hp'
  obtain ⟨h1, h2⟩ := hp'
  subst h1; subst h2
  refine ⟨?_, ?_, ?_, ?_, ?_, ?_, ?_, ?_, ?_, ?_⟩ <;>
    by_cases hmp : 0 < s.maxProcessSize <;>
    simp [hm, hmp, resetsIn_append, hres, Kernel.updateRatio, Stretcher.reset,
      Stretcher.setTimeRatio, Stretcher.setMaxProcessSize,
      Stretcher.getPreferredStartPad, Stretcher.getStartDelay,
      hrs, hpad, hdel, hp, hf] <;>
    simp [resetsIn, isReset]

/-- Same description for `setPitch` on a differing pitch scale. -/
lemma setPitch_apply_of_ne (s : Kernel.RealtimeRubberBand) (r : ℚ)
    (hr : 0 < r) (hne : s.stretcher.getPitchScale ≠ r) :
    (Kernel.setPitch s r).isOk = true ∧
    ∀ s' tr, Kernel.setPitch s r = .ok (s', tr) →
      tr = (Kernel.fetchProcessed s).2.2 ++ [.resetCall] ++
          (if 0 < s.maxProcessSize then
            [EngineCall.setMaxProcessSizeCall s.maxProcessSize] else []) ++
          [.setPitchScaleCall r, .getLatencyCall] ∧
      resetsIn tr = 1 ∧
      s'.stretcher.resets = s.stretcher.resets + 1 ∧
      (0 < s.maxProcessSize →
        s'.stretcher.engineMaxProcessSize = s.maxProcessSize) ∧
      s'.stretcher.enginePitchScale = r ∧
      s'.stretcher.engineTimeRatio = s.stretcher.engineTimeRatio ∧
      s'.stretcher.engineFormantScale = s.stretcher.engineFormantScale ∧
      s'.maxProcessSize = s.maxProcessSize ∧
      s'.startPadSamples = s.stretcher.padOf s.stretcher.engineTimeRatio r
        s.stretcher.engineFormantScale ∧
      s'.startDelaySamples = s.stretcher.delayOf s.stretcher.engineTimeRatio r
        s.stretcher.engineFormantScale := by
  obtain ⟨hm, hc, ht, hp, hf, hrs, hpad, hdel, hres⟩ := fetchProcessed_preserves s
  have hr0 : ¬ r ≤ 0 := not_le.mpr hr
  constructor
  · simp only [Kernel.setPitch, if_neg hr0, if_pos hne, Except.isOk]
    rfl
  intro s' tr hp'
  simp only [Kernel.setPitch, if_neg hr0, if_pos hne, Except.ok.injEq,
    Prod.mk.injEq] at hp'
  obtain ⟨h1, h2⟩ := hp'
  subst h1; subst h2
  refine ⟨?_, ?_, ?_, ?_, ?_, ?_, ?_, ?_, ?_, ?_⟩ <;>
    by_cases hmp : 0 < s.maxProcessSize <;>
    simp [hm, hmp, resetsIn_append, hres, Kernel.updateRatio, Stretcher.reset,
      Stretcher.setPitchScale, Stretcher.setMaxProcessSize,
      Stretcher.getPreferredStartPad, Stretcher.getStartDelay,
      hrs, hpad, hdel, ht, hf] <;>
    simp [resetsIn, isReset]

/-- Same description for `setFormantScale` on a differing formant scale. -/
lemma setFormantScale_apply_of_ne (s : Kernel.RealtimeRubberBand) (r : ℚ)
    (hr : 0 < r) (hne : s.stretcher.getFormantScale ≠ r) :
    (Kernel.setFormantScale s r).isOk = true ∧
    ∀ s' tr, Kernel.setFormantScale s r = .ok (s', tr) →
      tr = (Kernel.fetchProcessed s).2.2 ++ [.resetCall] ++
          (if 0 < s.maxProcessSize then
            [EngineCall.setMaxProcessSizeCall s.maxProcessSize] else []) ++
          [.setFormantScaleCall r, .getLatencyCall] ∧
      resetsIn tr = 1 ∧
      s'.stretcher.resets = s.stretcher.resets + 1 ∧
      (0 < s.maxProcessSize →
        s'.stretcher.engineMaxProcessSize = s.maxProcessSize) ∧
      s'.stretcher.engineFormantScale = r ∧
      s'.stretcher.engineTimeRatio = s.stretcher.engineTimeRatio ∧
      s'.stretcher.enginePitchScale = s.stretcher.enginePitchScale ∧
      s'.maxProcessSize = s.maxProcessSize ∧
      s'.startPadSamples = s.stretcher.padOf s.stretcher.engineTimeRatio
        s.stretcher.enginePitchScale r ∧
      s'.startDelaySamples = s.stretcher.delayOf s.stretcher.engineTimeRatio
        s.stretcher.enginePitchScale r := by
  obtain ⟨hm, hc, ht, hp, hf, hrs, hpad, hdel, hres⟩ := fetchProcessed_preserves s
  have hr0 : ¬ r ≤ 0 := not_le.mpr hr
  constructor
  · simp only [Kernel.setFormantScale, if_neg hr0, if_pos hne, Except.isOk]
    rfl
  intro s' tr hp'
  simp only [Kernel.setFormantScale, if_neg hr0, if_pos hne, Except.ok.injEq,
    Prod.mk.injEq] at hp'
  obtain ⟨h1, h2⟩ := hp'
  subst h1; subst h2
  refine ⟨?_, ?_, ?_, ?_, ?_, ?_, ?_, ?_, ?_, ?_⟩ <;>
    by_cases hmp : 0 < s.maxProcessSize <;>
    simp [hm, hmp, resetsIn_append, hres, Kernel.updateRatio, Stretcher.reset,
      Stretcher.setFormantScale, Stretcher.setMaxProcessSize,
      Stretcher.getPreferredStartPad, Stretcher.getStartDelay,
      hrs, hpad, hdel, ht, hp] <;>
    simp [resetsIn, isReset]

/-- Every `fetchProcessed` trace starts with the `available()` query. -/
lemma fetchProcessed_trace_head (s : Kernel.RealtimeRubberBand) :
    (Kernel.fetchProcessed s).2.2.head? = some .availableCall := by
  by_cases h1 : 0 < s.stretcher.available <;>
  by_cases h2 : 0 < s.startDelaySamples <;>
  by_cases h3 : s.startDelaySamples ≤ s.stretcher.available <;>
  simp [Kernel.fetchProcessed, Kernel.fetchWrite, Stretcher.retrieve,
    h1, h2, h3]

/-- The write phase of a fetch (delay not exceeding the available count):
each in-range channel's buffer receives the engine's channel output after
the discarded delay prefix, clipped to the surplus and to the free space. -/
lemma fetchProcessed_buffer_data (s : Kernel.RealtimeRubberBand) (c : ℕ)
    (hc : c < s.channelCount)
    (h1 : 0 < s.stretcher.available)
    (h3 : s.startDelaySamples ≤ s.stretcher.available) :
    ((Kernel.fetchProcessed s).1.outputBuffer c).data
      = (s.outputBuffer c).data ++
        (((s.stretcher.pending c).drop s.startDelaySamples).take
          (s.stretcher.available - s.startDelaySamples)).take
          (s.outputBuffer c).writeSpace := by
  have hmind : s.startDelaySamples ⊓ (s.stretcher.pending 0).length
      = s.startDelaySamples := min_eq_left h3
  have h1b : 0 < (s.stretcher.pending 0).length := h1
  have h3b : s.startDelaySamples ≤ (s.stretcher.pending 0).length := h3
  by_cases h2 : 0 < s.startDelaySamples
  · simp [Kernel.fetchProcessed, Kernel.fetchWrite, Stretcher.retrieve,
      Stretcher.available, RingBuffer.write, RingBuffer.writeSpace,
      h1b, h2, h3b, hc, hmind]
  · have h0 : s.startDelaySamples = 0 := Nat.eq_zero_of_not_pos h2
    simp [Kernel.fetchProcessed, Kernel.fetchWrite, Stretcher.retrieve,
      Stretcher.available, RingBuffer.write, RingBuffer.writeSpace,
      h1b, h2, h3b, h0, hc]

/-! ## Claims -/

/-- **C1** (amended): `push` performs no validation of `sampleCount` against
the configured fixed block size.  Even when a fixed size is configured
(`maxProcessSize ≠ 0`) and `sampleCount` differs from it, `push` forwards the
block to the engine (`process(sampleCount)` heads the trace), immediately
fetches (the `available()` query follows), raises no error and resets
nothing; apart from the size recorded in the `process` call, the outcome is
identical to a push of the configured size.  The fixed-size contract is
documented in a source comment but left to the caller. -/
theorem push_performs_no_blocksize_validation (s : Kernel.RealtimeRubberBand)
    (input : ℕ → ℚ) (n : ℕ) (emitted : ℕ → List ℚ)
    (hmps : s.maxProcessSize ≠ 0) (hne : n ≠ s.maxProcessSize) :
    (Kernel.push s input n emitted).2.2.head? = some (.processCall n) ∧
    (Kernel.push s input n emitted).2.2.tail.head? = some .availableCall ∧
    resetsIn (Kernel.push s input n emitted).2.2 = 0 ∧
    (Kernel.push s input n emitted).1
      = (Kernel.push s input s.maxProcessSize emitted).1 ∧
    (Kernel.push s input n emitted).2.2.tail
      = (Kernel.push s input s.maxProcessSize emitted).2.2.tail := by
  refine ⟨rfl, ?_, ?_, rfl, rfl⟩
  · exact fetchProcessed_trace_head _
  · have h := (fetchProcessed_preserves
      { s with stretcher := s.stretcher.process emitted }).2.2.2.2.2.2.2.2
    simpa [Kernel.push, resetsIn, List.filter_cons, isReset] using h

/-- Witness for the amended C1: a concrete session configured with fixed
block size 128 still forwards a push of 64 samples to the engine. -/
theorem push_performs_no_blocksize_validation_witness :
    (Kernel.push (mkSessionEx [] [] 4 0 128) (fun _ => 0) 64
        (fun _ => [5, 6])).2.2.head? = some (.processCall 64) :=
  (push_performs_no_blocksize_validation (mkSessionEx [] [] 4 0 128)
    (fun _ => 0) 64 (fun _ => [5, 6]) (by decide) (by decide)).1

/-- Counterexample to C1 as stated: with fixed block size 128 configured, a
push of 64 samples does not fail — the engine receives `process(64)`, a
fetch runs, and state is mutated (the retrieved samples land in the ring
buffers). -/
theorem push_blocksize_contract_cex :
    (mkSessionEx [] [] 4 0 128).maxProcessSize = 128 ∧
    (Kernel.push (mkSessionEx [] [] 4 0 128) (fun _ => 0) 64
        (fun _ => [5, 6])).2.2
      = [.processCall 64, .availableCall, .retrieveCall 2] ∧
    ((Kernel.push (mkSessionEx [] [] 4 0 128) (fun _ => 0) 64
        (fun _ => [5, 6])).1.outputBuffer 0).data = [5, 6] := by
  refine ⟨rfl, ?_, ?_⟩ <;> decide

/-- **C2** (amended): during `fetchProcessed`, the overrun diagnostic is
raised exactly when the ring buffer's free write space is *less than or
equal to* (not strictly smaller than) the newly available output count after
start-delay discarding; when the write phase is not reached (nothing
available, or the whole burst is swallowed by the remaining start delay) no
overrun is flagged; and the overrun is non-fatal — the fetch still writes
`min(remaining, writeSpace)` samples into each channel. -/
theorem fetch_overrun_signal (s : Kernel.RealtimeRubberBand)
    (hpend : ∀ c < s.channelCount,
      (s.stretcher.pending c).length = s.stretcher.available) :
    (s.stretcher.available = 0 → (Kernel.fetchProcessed s).2.1 = false) ∧
    (0 < s.stretcher.available →
      s.stretcher.available < s.startDelaySamples →
      (Kernel.fetchProcessed s).2.1 = false) ∧
    (0 < s.stretcher.available →
      s.startDelaySamples ≤ s.stretcher.available →
      ((Kernel.fetchProcessed s).2.1 = true ↔
        (s.outputBuffer 0).writeSpace
          ≤ s.stretcher.available - s.startDelaySamples)) ∧
    (0 < s.stretcher.available →
      s.startDelaySamples ≤ s.stretcher.available →
      ∀ c < s.channelCount,
        ((Kernel.fetchProcessed s).1.outputBuffer c).readSpace
          = (s.outputBuffer c).readSpace +
            min (s.stretcher.available - s.startDelaySamples)
              (s.outputBuffer c).writeSpace) := by
  refine ⟨?_, ?_, ?_, ?_⟩
  · intro h0
    simp [Kernel.fetchProcessed, h0]
  · intro h1 h3
    have h2 : 0 < s.startDelaySamples := h1.trans h3
    simp [Kernel.fetchProcessed, h1, h2, not_le.mpr h3]
  · intro h1 h3
    by_cases h2 : 0 < s.startDelaySamples
    · simp [Kernel.fetchProcessed, Kernel.fetchWrite, Stretcher.retrieve,
        h1, h2, h3, RingBuffer.writeSpace]
    · have h0 : s.startDelaySamples = 0 := Nat.eq_zero_of_not_pos h2
      simp [Kernel.fetchProcessed, Kernel.fetchWrite, Stretcher.retrieve,
        h1, h2, h3, h0, RingBuffer.writeSpace]
  · intro h1 h3 c hc
    have h4 : (s.stretcher.pending c).length = s.stretcher.available :=
      hpend c hc
    simp only [RingBuffer.readSpace, fetchProcessed_buffer_data s c hc h1 h3,
      RingBuffer.writeSpace, List.length_append, List.length_take,
      List.length_drop]
    omega

/-- Witness for the amended C2 at a concrete session: two samples available,
write space exactly two — the overrun diagnostic fires although everything
fits. -/
theorem fetch_overrun_signal_witness :
    (Kernel.fetchProcessed (mkSessionEx [1, 2] [0, 0] 4 0 0)).2.1 = true :=
  (((fetch_overrun_signal (mkSessionEx [1, 2] [0, 0] 4 0 0)
    (by decide)).2.2.1 (by decide) (by decide)).mpr (by decide))

/-- Counterexample to C2 as stated: with write space equal to the available
count (2 = 2, not strictly smaller), the code still signals an overrun —
and in fact every sample fits (the buffer ends up full, nothing dropped). -/
theorem fetch_overrun_strict_cex :
    (Kernel.fetchProcessed (mkSessionEx [1, 2] [0, 0] 4 0 0)).2.1 = true ∧
    ¬ ((mkSessionEx [1, 2] [0, 0] 4 0 0).outputBuffer 0).writeSpace
        < (mkSessionEx [1, 2] [0, 0] 4 0 0).stretcher.available ∧
    ((Kernel.fetchProcessed
        (mkSessionEx [1, 2] [0, 0] 4 0 0)).1.outputBuffer 0).data
      = [0, 0, 1, 2] := by
  refine ⟨?_, ?_, ?_⟩ <;> decide

/-- **C6**: a fetch with remaining start delay `d > 0` and available count
`A > 0` retrieves and discards exactly `min(A, d)` samples (first retrieve
in the trace), leaves the remaining delay at `d - min(A, d)` (never
negative), and writes only samples from the surplus — the engine output
after the discarded prefix — into the ring buffers: exactly the surplus when
the write space suffices, nothing at all when the burst was fully consumed
by the delay. -/
theorem fetch_start_delay_discard (s : Kernel.RealtimeRubberBand)
    (hd : 0 < s.startDelaySamples) (hA : 0 < s.stretcher.available)
    (hpend : ∀ c < s.channelCount,
      (s.stretcher.pending c).length = s.stretcher.available) :
    (Kernel.fetchProcessed s).2.2
      = [.availableCall,
         .retrieveCall (min s.stretcher.available s.startDelaySamples)] ++
        (if s.startDelaySamples ≤ s.stretcher.available then
          [EngineCall.retrieveCall
            (s.stretcher.available - s.startDelaySamples)] else []) ∧
    (Kernel.fetchProcessed s).1.startDelaySamples
      = s.startDelaySamples - min s.stretcher.available s.startDelaySamples ∧
    (s.startDelaySamples ≤ s.stretcher.available →
      ∀ c < s.channelCount,
        ((Kernel.fetchProcessed s).1.outputBuffer c).data
          = (s.outputBuffer c).data ++
            (((s.stretcher.pending c).drop s.startDelaySamples).take
              (s.stretcher.available - s.startDelaySamples)).take
              (s.outputBuffer c).writeSpace) ∧
    (s.startDelaySamples ≤ s.stretcher.available →
      (∀ c < s.channelCount, s.stretcher.available - s.startDelaySamples
          ≤ (s.outputBuffer c).writeSpace) →
      ∀ c < s.channelCount,
        ((Kernel.fetchProcessed s).1.outputBuffer c).data
          = (s.outputBuffer c).data ++
            (s.stretcher.pending c).drop s.startDelaySamples) ∧
    (s.stretcher.available ≤ s.startDelaySamples →
      ∀ c < s.channelCount,
        ((Kernel.fetchProcessed s).1.outputBuffer c).data
          = (s.outputBuffer c).data) := by
  by_cases h3 : s.startDelaySamples ≤ s.stretcher.available
  · have hmin : min s.stretcher.available s.startDelaySamples
        = s.startDelaySamples := min_eq_right h3
    have h1b : 0 < (s.stretcher.pending 0).length := hA
    have h3b : s.startDelaySamples ≤ (s.stretcher.pending 0).length := h3
    refine ⟨?_, ?_, ?_, ?_, ?_⟩
    · simp [Kernel.fetchProcessed, Kernel.fetchWrite, Stretcher.retrieve,
        Stretcher.available, h1b, hd, h3b, h3, hmin]
    · simp [Kernel.fetchProcessed, Kernel.fetchWrite, Stretcher.retrieve,
        Stretcher.available, h1b, hd, h3b, h3, hmin]
    · intro _ c hc
      exact fetchProcessed_buffer_data s c hc hA h3
    · intro _ hws c hc
      rw [fetchProcessed_buffer_data s c hc hA h3]
      have hl := hpend c hc
      have hlen1 : (((s.stretcher.pending c).drop s.startDelaySamples).take
          (s.stretcher.available - s.startDelaySamples)).length
          ≤ (s.outputBuffer c).writeSpace := by
        simp only [List.length_take, List.length_drop, hl]
        exact le_trans (min_le_left _ _) (hws c hc)
      have hlen2 : ((s.stretcher.pending c).drop s.startDelaySamples).length
          ≤ s.stretcher.available - s.startDelaySamples := by
        simp only [List.length_drop, hl]
        exact le_refl _
      rw [List.take_of_length_le hlen1, List.take_of_length_le hlen2]
    · intro h5 c hc
      have heq : s.stretcher.available = s.startDelaySamples :=
        le_antisymm h5 h3
      rw [fetchProcessed_buffer_data s c hc hA h3]
      simp [heq]
  · have hmin : min s.stretcher.available s.startDelaySamples
        = s.stretcher.available := min_eq_left (le_of_not_le h3)
    have h1b : 0 < (s.stretcher.pending 0).length := hA
    have h3b : ¬ s.startDelaySamples ≤ (s.stretcher.pending 0).length := h3
    have hminb : (s.stretcher.pending 0).length ⊓ s.startDelaySamples
        = (s.stretcher.pending 0).length := hmin
    have hle : (s.stretcher.pending 0).length ≤ s.startDelaySamples :=
      le_of_lt (lt_of_not_le h3)
    refine ⟨?_, ?_, fun h => absurd h h3, fun h => absurd h h3, ?_⟩
    · simp [Kernel.fetchProcessed, Stretcher.retrieve, Stretcher.available,
        h1b, hd, h3b, hminb, hle]
    · simp [Kernel.fetchProcessed, Stretcher.retrieve, Stretcher.available,
        h1b, hd, h3b, hminb, hle]
    · intro _ c hc
      simp [Kernel.fetchProcessed, Stretcher.retrieve, Stretcher.available,
        h1b, hd, h3b]

/-- Witness for C6 at a concrete session: delay 1, three samples available —
one sample is discarded, the remaining two reach the ring buffer. -/
theorem fetch_start_delay_discard_witness :
    (Kernel.fetchProcessed (mkSessionEx [7, 8, 9] [] 4 1 0)).2.2
      = [.availableCall, .retrieveCall 1, .retrieveCall 2] :=
  (fetch_start_delay_discard (mkSessionEx [7, 8, 9] [] 4 1 0)
    (by decide) (by decide) (by decide)).1

/-- **C4**: every ratio setter (`setTempo`, `setPitch`, `setFormantScale`)
called with a value equal to the engine's current value is a no-op — it
returns the session unchanged with an empty engine-call trace (no reset, no
fetch, no state change) — and two consecutive identical ratio-set calls
trigger at most one engine reset in total (the second call is always a
no-op). -/
theorem ratio_setter_equal_value_noop (s : Kernel.RealtimeRubberBand)
    (r : ℚ) (hr : 0 < r) :
    (s.stretcher.getTimeRatio = r → Kernel.setTempo s r = .ok (s, [])) ∧
    (s.stretcher.getPitchScale = r → Kernel.setPitch s r = .ok (s, [])) ∧
    (s.stretcher.getFormantScale = r →
      Kernel.setFormantScale s r = .ok (s, [])) ∧
    (∀ s1 tr1, Kernel.setTempo s r = .ok (s1, tr1) →
      Kernel.setTempo s1 r = .ok (s1, []) ∧ resetsIn tr1 ≤ 1) ∧
    (∀ s1 tr1, Kernel.setPitch s r = .ok (s1, tr1) →
      Kernel.setPitch s1 r = .ok (s1, []) ∧ resetsIn tr1 ≤ 1) ∧
    (∀ s1 tr1, Kernel.setFormantScale s r = .ok (s1, tr1) →
      Kernel.setFormantScale s1 r = .ok (s1, []) ∧ resetsIn tr1 ≤ 1) := by
  refine ⟨setTempo_noop s r hr, setPitch_noop s r hr,
    setFormantScale_noop s r hr, ?_, ?_, ?_⟩
  · intro s1 tr1 h1
    by_cases heq : s.stretcher.getTimeRatio = r
    · rw [setTempo_noop s r hr heq] at h1
      obtain ⟨rfl, rfl⟩ := Prod.mk.injEq .. ▸ Except.ok.inj h1
      exact ⟨setTempo_noop s r hr heq, by simp [resetsIn]⟩
    · obtain ⟨-, hall⟩ := setTempo_apply_of_ne s r hr heq
      obtain ⟨-, hone, -, -, hratio, -⟩ := hall s1 tr1 h1
      exact ⟨setTempo_noop s1 r hr hratio, le_of_eq hone⟩
  · intro s1 tr1 h1
    by_cases heq : s.stretcher.getPitchScale = r
    · rw [setPitch_noop s r hr heq] at h1
      obtain ⟨rfl, rfl⟩ := Prod.mk.injEq .. ▸ Except.ok.inj h1
      exact ⟨setPitch_noop s r hr heq, by simp [resetsIn]⟩
    · obtain ⟨-, hall⟩ := setPitch_apply_of_ne s r hr heq
      obtain ⟨-, hone, -, -, hratio, -⟩ := hall s1 tr1 h1
      exact ⟨setPitch_noop s1 r hr hratio, le_of_eq hone⟩
  · intro s1 tr1 h1
    by_cases heq : s.stretcher.getFormantScale = r
    · rw [setFormantScale_noop s r hr heq] at h1
      obtain ⟨rfl, rfl⟩ := Prod.mk.injEq .. ▸ Except.ok.inj h1
      exact ⟨setFormantScale_noop s r hr heq, by simp [resetsIn]⟩
    · obtain ⟨-, hall⟩ := setFormantScale_apply_of_ne s r hr heq
      obtain ⟨-, hone, -, -, hratio, -⟩ := hall s1 tr1 h1
      exact ⟨setFormantScale_noop s1 r hr hratio, le_of_eq hone⟩

/-- Witness for C4 at a concrete session: setting the tempo to its current
value `1` returns the session unchanged with an empty trace. -/
theorem ratio_setter_equal_value_noop_witness :
    Kernel.setTempo (mkSessionEx [] [] 4 0 128) 1
      = .ok (mkSessionEx [] [] 4 0 128, []) :=
  (ratio_setter_equal_value_noop (mkSessionEx [] [] 4 0 128) 1
    (by norm_num)).1 rfl

/-- **C5**: every ratio setter called with a value different from the
engine's current value performs, in this order: one drain-fetch of output
produced under the old parameters, exactly one engine reset, one
re-application of the fixed block size when one was configured, the
application of the new ratio, and the latency re-query; the result carries
the reset count incremented by one, the re-applied block size, the new ratio
and the start-pad / start-delay recomputed from the new configuration. -/
theorem ratio_setter_change_protocol (s : Kernel.RealtimeRubberBand)
    (r : ℚ) (hr : 0 < r) :
    (s.stretcher.getTimeRatio ≠ r →
      (Kernel.setTempo s r).isOk = true ∧
      ∀ s' tr, Kernel.setTempo s r = .ok (s', tr) →
        tr = (Kernel.fetchProcessed s).2.2 ++ [.resetCall] ++
            (if 0 < s.maxProcessSize then
              [EngineCall.setMaxProcessSizeCall s.maxProcessSize] else []) ++
            [.setTimeRatioCall r, .getLatencyCall] ∧
        resetsIn tr = 1 ∧
        s'.stretcher.resets = s.stretcher.resets + 1 ∧
        (0 < s.maxProcessSize →
          s'.stretcher.engineMaxProcessSize = s.maxProcessSize) ∧
        s'.stretcher.engineTimeRatio = r ∧
        s'.startPadSamples = s.stretcher.padOf r s.stretcher.enginePitchScale
          s.stretcher.engineFormantScale ∧
        s'.startDelaySamples = s.stretcher.delayOf r
          s.stretcher.enginePitchScale s.stretcher.engineFormantScale) ∧
    (s.stretcher.getPitchScale ≠ r →
      (Kernel.setPitch s r).isOk = true ∧
      ∀ s' tr, Kernel.setPitch s r = .ok (s', tr) →
        tr = (Kernel.fetchProcessed s).2.2 ++ [.resetCall] ++
            (if 0 < s.maxProcessSize then
              [EngineCall.setMaxProcessSizeCall s.maxProcessSize] else []) ++
            [.setPitchScaleCall r, .getLatencyCall] ∧
        resetsIn tr = 1 ∧
        s'.stretcher.resets = s.stretcher.resets + 1 ∧
        (0 < s.maxProcessSize →
          s'.stretcher.engineMaxProcessSize = s.maxProcessSize) ∧
        s'.stretcher.enginePitchScale = r ∧
        s'.startPadSamples = s.stretcher.padOf s.stretcher.engineTimeRatio r
          s.stretcher.engineFormantScale ∧
        s'.startDelaySamples = s.stretcher.delayOf s.stretcher.engineTimeRatio
          r s.stretcher.engineFormantScale) ∧
    (s.stretcher.getFormantScale ≠ r →
      (Kernel.setFormantScale s r).isOk = true ∧
      ∀ s' tr, Kernel.setFormantScale s r = .ok (s', tr) →
        tr = (Kernel.fetchProcessed s).2.2 ++ [.resetCall] ++
            (if 0 < s.maxProcessSize then
              [EngineCall.setMaxProcessSizeCall s.maxProcessSize] else []) ++
            [.setFormantScaleCall r, .getLatencyCall] ∧
        resetsIn tr = 1 ∧
        s'.stretcher.resets = s.stretcher.resets + 1 ∧
        (0 < s.maxProcessSize →
          s'.stretcher.engineMaxProcessSize = s.maxProcessSize) ∧
        s'.stretcher.engineFormantScale = r ∧
        s'.startPadSamples = s.stretcher.padOf s.stretcher.engineTimeRatio
          s.stretcher.enginePitchScale r ∧
        s'.startDelaySamples = s.stretcher.delayOf s.stretcher.engineTimeRatio
          s.stretcher.enginePitchScale r) := by
  refine ⟨fun hne => ?_, fun hne => ?_, fun hne => ?_⟩
  · obtain ⟨hok, hall⟩ := setTempo_apply_of_ne s r hr hne
    refine ⟨hok, fun s' tr h => ?_⟩
    obtain ⟨h1, h2, h3, h4, h5, -, -, -, h9, h10⟩ := hall s' tr h
    exact ⟨h1, h2, h3, h4, h5, h9, h10⟩
  · obtain ⟨hok, hall⟩ := setPitch_apply_of_ne s r hr hne
    refine ⟨hok, fun s' tr h => ?_⟩
    obtain ⟨h1, h2, h3, h4, h5, -, -, -, h9, h10⟩ := hall s' tr h
    exact ⟨h1, h2, h3, h4, h5, h9, h10⟩
  · obtain ⟨hok, hall⟩ := setFormantScale_apply_of_ne s r hr hne
    refine ⟨hok, fun s' tr h => ?_⟩
    obtain ⟨h1, h2, h3, h4, h5, -, -, -, h9, h10⟩ := hall s' tr h
    exact ⟨h1, h2, h3, h4, h5, h9, h10⟩

/-- Witness for C5 at a concrete session: setting the tempo to `2` (current
ratio `1`) succeeds. -/
theorem ratio_setter_change_protocol_witness :
    (Kernel.setTempo (mkSessionEx [] [] 4 0 128) 2).isOk = true :=
  ((ratio_setter_change_protocol (mkSessionEx [] [] 4 0 128) 2
    (by norm_num)).1 (by decide)).1

lemma getD_mapIdx (l : List (List ℚ)) (f : ℕ → List ℚ → List ℚ) (c : ℕ)
    (h : c < l.length) :
    (l.mapIdx f).getD c [] = f c (l.getD c []) := by
  rw [List.getD_eq_getElem _ _ (by simpa using h), List.getD_eq_getElem _ _ h]
  simp [List.getElem_mapIdx]

lemma getD_mem_of_lt (l : List (List ℚ)) (c : ℕ) (h : c < l.length) :
    l.getD c [] ∈ l := by
  rw [List.getD_eq_getElem _ _ h]
  exact List.getElem_mem h

/-- The output block returned by the worklet `pull` when something is
pulled: each channel gets `toPull` heap samples followed by its own tail. -/
lemma worklet_pull_snd (w : Worklet.RealtimeRubberBand)
    (channels : List (List ℚ)) (h0 : channels.length ≠ 0)
    (h1 : 0 < Kernel.getSamplesAvailable w.kernel)
    (h2 : 0 < (channels.headD []).length) :
    (Worklet.pull w channels).2
      = channels.mapIdx fun c ch =>
          ((List.range (min (Kernel.getSamplesAvailable w.kernel)
              (channels.headD []).length)).map fun i =>
            (Kernel.pull w.kernel w.outputHeap
              (min (Kernel.getSamplesAvailable w.kernel)
                (channels.headD []).length)).2
              (c * Worklet.RENDER_QUANTUM_FRAMES + i)) ++
          ch.drop (min (Kernel.getSamplesAvailable w.kernel)
            (channels.headD []).length) := by
  have h2b : 0 < (channels.head?.getD []).length := by
    rwa [← List.headD_eq_head?]
  simp [Worklet.pull, h0, h1, h2b]

/-- The worklet `pull` is the identity when nothing can be pulled. -/
lemma worklet_pull_zero (w : Worklet.RealtimeRubberBand)
    (channels : List (List ℚ))
    (h : min (Kernel.getSamplesAvailable w.kernel)
      (channels.headD []).length = 0) :
    Worklet.pull w channels = (w, channels) := by
  have hn : ¬ (0 < Kernel.getSamplesAvailable w.kernel ∧
      0 < (channels.head?.getD []).length) := by
    rw [← List.headD_eq_head?]
    omega
  by_cases h0 : channels.length = 0 <;> simp [Worklet.pull, h0, hn]

/-- **C3**: with `A` samples available and `requestedCount = L` (every
output channel's length), the worklet `pull` copies exactly
`min(A, requestedCount)` samples into each channel of the output block,
leaves the remaining entries unchanged (no zero-padding is synthesized),
and a short fill raises no error (the operation is total). -/
theorem worklet_pull_copies_min (w : Worklet.RealtimeRubberBand)
    (channels : List (List ℚ)) (L : ℕ) (hne : channels ≠ [])
    (hlen : ∀ ch ∈ channels, ch.length = L) :
    (Worklet.pull w channels).2.length = channels.length ∧
    ∀ c < channels.length,
      ((Worklet.pull w channels).2.getD c []).length = L ∧
      ((Worklet.pull w channels).2.getD c []).drop
          (min (Worklet.samplesAvailable w) L)
        = (channels.getD c []).drop
          (min (Worklet.samplesAvailable w) L) := by
  have hlen0 : channels.length ≠ 0 :=
    fun h => hne (List.eq_nil_of_length_eq_zero h)
  have hhead : (channels.headD []).length = L := by
    cases channels with
    | nil => exact absurd rfl hne
    | cons h t => exact hlen h (List.mem_cons_self ..)
  by_cases htp : 0 < min (Worklet.samplesAvailable w) L
  · have htp' : 0 < min (Kernel.getSamplesAvailable w.kernel)
        (channels.headD []).length := by
      rw [hhead]; exact htp
    rw [worklet_pull_snd w channels hlen0 (lt_min_iff.mp htp').1
      (lt_min_iff.mp htp').2]
    refine ⟨by simp, fun c hc => ?_⟩
    rw [getD_mapIdx _ _ c hc]
    have hchlen : (channels.getD c []).length = L :=
      hlen _ (getD_mem_of_lt channels c hc)
    rw [hhead]
    simp only [Worklet.samplesAvailable]
    constructor
    · simp only [List.length_append, List.length_map, List.length_range,
        List.length_drop, hchlen]
      omega
    · rw [List.drop_left' (by simp)]
  · have h0 : min (Kernel.getSamplesAvailable w.kernel)
        (channels.headD []).length = 0 := by
      rw [hhead]; exact Nat.eq_zero_of_not_pos htp
    rw [worklet_pull_zero w channels h0]
    exact ⟨rfl, fun c hc =>
      ⟨hlen _ (getD_mem_of_lt channels c hc), rfl⟩⟩

/-- **C7** (amended): the worklet `pull` fills as many samples as are
available, up to each output buffer's length — each returned channel is a
filled prefix of length `min(available, L)` followed by its untouched tail —
and it returns the output block itself; no fill count is returned, so a
short fill is not reported through the return value. -/
theorem worklet_pull_fills_returns_block (w : Worklet.RealtimeRubberBand)
    (channels : List (List ℚ)) (L : ℕ) (hne : channels ≠ [])
    (hlen : ∀ ch ∈ channels, ch.length = L) :
    (Worklet.pull w channels).2.length = channels.length ∧
    ∀ c < channels.length, ∃ p : List ℚ,
      p.length = min (Worklet.samplesAvailable w) L ∧
      (Worklet.pull w channels).2.getD c []
        = p ++ (channels.getD c []).drop
            (min (Worklet.samplesAvailable w) L) := by
  have hlen0 : channels.length ≠ 0 :=
    fun h => hne (List.eq_nil_of_length_eq_zero h)
  have hhead : (channels.headD []).length = L := by
    cases channels with
    | nil => exact absurd rfl hne
    | cons h t => exact hlen h (List.mem_cons_self ..)
  by_cases htp : 0 < min (Worklet.samplesAvailable w) L
  · have htp' : 0 < min (Kernel.getSamplesAvailable w.kernel)
        (channels.headD []).length := by
      rw [hhead]; exact htp
    rw [worklet_pull_snd w channels hlen0 (lt_min_iff.mp htp').1
      (lt_min_iff.mp htp').2]
    refine ⟨by simp, fun c hc => ?_⟩
    rw [getD_mapIdx _ _ c hc, hhead]
    simp only [Worklet.samplesAvailable]
    exact ⟨_, by simp, rfl⟩
  · have h0 : min (Kernel.getSamplesAvailable w.kernel)
        (channels.headD []).length = 0 := by
      rw [hhead]; exact Nat.eq_zero_of_not_pos htp
    have h0' : min (Worklet.samplesAvailable w) L = 0 :=
      Nat.eq_zero_of_not_pos htp
    rw [worklet_pull_zero w channels h0]
    exact ⟨rfl, fun c hc => ⟨[], by simp [h0'], by simp [h0']⟩⟩

/-- Counterexample to C7 as stated: a short fill (1 of 2 samples) and a
full fill (2 of 2) produce identical return values, so the return value
cannot report the short fill — no return count exists. -/
theorem worklet_pull_return_no_count_cex :
    (Worklet.pull (mkWrapperEx [0]) [[0, 0]]).2
      = (Worklet.pull (mkWrapperEx [0, 0]) [[0, 0]]).2 ∧
    Worklet.samplesAvailable (mkWrapperEx [0]) = 1 ∧
    Worklet.samplesAvailable (mkWrapperEx [0, 0]) = 2 := by
  refine ⟨?_, ?_, ?_⟩ <;> decide

/-- Witness for the amended C7 at a concrete wrapper and block. -/
theorem worklet_pull_fills_returns_block_witness :
    (Worklet.pull (mkWrapperEx [0]) [[0, 0]]).2.length = 1 :=
  (worklet_pull_fills_returns_block (mkWrapperEx [0]) [[0, 0]] 2
    (by decide) (by decide)).1

/-- Witness for C3 at a concrete wrapper and block. -/
theorem worklet_pull_copies_min_witness :
    ((Worklet.pull (mkWrapperEx [0, 0]) [[0, 0]]).2.getD 0 []).length = 2 :=
  ((worklet_pull_copies_min (mkWrapperEx [0, 0]) [[0, 0]] 2
    (by decide) (by decide)).2 0 (by decide)).1

/-- The per-channel pull loop: with every listed channel's fill equal to
`F`, each listed channel ends at `F - min F n`, and unlisted channels are
untouched. -/
lemma pullChannels_readSpace (n F : ℕ) (l : List ℕ)
    (bufs : ℕ → RingBuffer) (heap : ℕ → ℚ) (hnd : l.Nodup)
    (hF : ∀ c ∈ l, (bufs c).readSpace = F) :
    (∀ c ∈ l, ((Kernel.pullChannels n l bufs heap).1 c).readSpace
      = F - min F n) ∧
    (∀ c, c ∉ l → (Kernel.pullChannels n l bufs heap).1 c = bufs c) := by
  induction l generalizing bufs heap with
  | nil => simp [Kernel.pullChannels]
  | cons c rest ih =>
    have hcF : (bufs c).readSpace = F := hF c (List.mem_cons_self ..)
    obtain ⟨hc1, hnd2⟩ := List.nodup_cons.mp hnd
    by_cases hF0 : F = 0
    · subst hF0
      have hav : (bufs c).readSpace = 0 := hcF
      refine ⟨fun c' hc' => ?_, fun c' hc' => ?_⟩
      · simpa [Kernel.pullChannels, hav] using hF c' hc'
      · simp [Kernel.pullChannels, hav]
    · have hav : ¬ (bufs c).readSpace = 0 := by rw [hcF]; exact hF0
      have hread : ((bufs c).read
          (min (bufs c).readSpace n)).1.readSpace = F - min F n := by
        simp [RingBuffer.read, RingBuffer.readSpace, hcF,
          RingBuffer.readSpace] at hcF ⊢
        omega
      set bufs' : ℕ → RingBuffer := fun i =>
        if i = c then ((bufs c).read (min (bufs c).readSpace n)).1
        else bufs i with hbufs'
      have hF' : ∀ c' ∈ rest, (bufs' c').readSpace = F := by
        intro c' hc'
        have hne : c' ≠ c := fun h => hc1 (h ▸ hc')
        simp only [hbufs', if_neg hne]
        exact hF c' (List.mem_cons_of_mem _ hc')
      obtain ⟨ih1, ih2⟩ := ih bufs' _ hnd2 hF'
      constructor
      · intro c' hc'
        rcases List.mem_cons.mp hc' with h | h
        · subst h
          simp only [Kernel.pullChannels, if_neg hav]
          rw [ih2 c' hc1]
          simp only [hbufs', if_pos rfl]
          exact hread
        · simp only [Kernel.pullChannels, if_neg hav]
          exact ih1 c' h
      · intro c' hc'
        have hne : c' ≠ c := fun h => hc' (h ▸ List.mem_cons_self ..)
        have hnr : c' ∉ rest := fun h => hc' (List.mem_cons_of_mem _ h)
        simp only [Kernel.pullChannels, if_neg hav]
        rw [ih2 c' hnr]
        simp only [hbufs', if_neg hne]

/-- When a fetch never reaches the write phase, the ring buffers are
untouched. -/
lemma fetchProcessed_buffer_unchanged (s : Kernel.RealtimeRubberBand)
    (h : s.stretcher.available = 0 ∨
      s.stretcher.available < s.startDelaySamples) (c : ℕ) :
    (Kernel.fetchProcessed s).1.outputBuffer c = s.outputBuffer c := by
  rcases h with h | h
  · simp [Kernel.fetchProcessed, h]
  · by_cases h1 : 0 < s.stretcher.available
    · have h2 : 0 < s.startDelaySamples := h1.trans h
      simp [Kernel.fetchProcessed, h1, h2, not_le.mpr h]
    · simp [Kernel.fetchProcessed, h1]

/-- A fetch writes the same amount into every channel's ring buffer: with
equal capacities, fills and pending lengths, fills stay equal. -/
lemma fetchProcessed_fill_aligned (s : Kernel.RealtimeRubberBand)
    (hcap : ∀ c < s.channelCount,
      (s.outputBuffer c).capacity = (s.outputBuffer 0).capacity)
    (hfill : ∀ c < s.channelCount,
      (s.outputBuffer c).readSpace = (s.outputBuffer 0).readSpace)
    (hpend : ∀ c < s.channelCount,
      (s.stretcher.pending c).length = (s.stretcher.pending 0).length) :
    ∀ c < s.channelCount,
      ((Kernel.fetchProcessed s).1.outputBuffer c).readSpace
        = ((Kernel.fetchProcessed s).1.outputBuffer 0).readSpace := by
  intro c hc
  have h0N : 0 < s.channelCount := by omega
  by_cases h1 : 0 < s.stretcher.available
  · by_cases h3 : s.startDelaySamples ≤ s.stretcher.available
    · have e1 := fetchProcessed_buffer_data s c hc h1 h3
      have e2 := fetchProcessed_buffer_data s 0 h0N h1 h3
      have hp := hpend c hc
      have hcp := hcap c hc
      have hf := hfill c hc
      simp only [RingBuffer.readSpace] at hf
      have hA : s.stretcher.available = (s.stretcher.pending 0).length := rfl
      simp only [RingBuffer.readSpace, e1, e2, List.length_append,
        List.length_take, List.length_drop, RingBuffer.writeSpace]
      omega
    · rw [fetchProcessed_buffer_unchanged s (Or.inr (not_le.mp h3)) c,
        fetchProcessed_buffer_unchanged s (Or.inr (not_le.mp h3)) 0]
      exact hfill c hc
  · have h0 : s.stretcher.available = 0 := Nat.eq_zero_of_not_pos h1
    rw [fetchProcessed_buffer_unchanged s (Or.inl h0) c,
      fetchProcessed_buffer_unchanged s (Or.inl h0) 0]
    exact hfill c hc

/-- **C8**: channels stay sample-aligned — after a complete push+fetch
cycle and after a pull, all per-channel ring buffers hold equal fill
counts.  Hypotheses: equal capacities and fills before the call, and the
engine's per-channel pending/emitted blocks of equal length (its own
invariant). -/
theorem channels_stay_aligned (s : Kernel.RealtimeRubberBand)
    (input : ℕ → ℚ) (n : ℕ) (emitted : ℕ → List ℚ) (heap : ℕ → ℚ) (m : ℕ)
    (hcap : ∀ c < s.channelCount,
      (s.outputBuffer c).capacity = (s.outputBuffer 0).capacity)
    (hfill : ∀ c < s.channelCount,
      (s.outputBuffer c).readSpace = (s.outputBuffer 0).readSpace)
    (hpend : ∀ c < s.channelCount,
      (s.stretcher.pending c).length = (s.stretcher.pending 0).length)
    (hemit : ∀ c < s.channelCount,
      (emitted c).length = (emitted 0).length) :
    (∀ c < s.channelCount,
      ((Kernel.push s input n emitted).1.outputBuffer c).readSpace
        = ((Kernel.push s input n emitted).1.outputBuffer 0).readSpace) ∧
    (∀ c < s.channelCount,
      ((Kernel.pull s heap m).1.outputBuffer c).readSpace
        = ((Kernel.pull s heap m).1.outputBuffer 0).readSpace) := by
  constructor
  · intro c hc
    refine fetchProcessed_fill_aligned
      { s with stretcher := s.stretcher.process emitted }
      hcap hfill ?_ c hc
    intro c' hc'
    simp only [Stretcher.process, List.length_append]
    rw [hpend c' hc', hemit c' hc']
  · intro c hc
    have h0N : 0 < s.channelCount := by omega
    have key := pullChannels_readSpace m ((s.outputBuffer 0).readSpace)
      (List.range s.channelCount) s.outputBuffer heap
      (List.nodup_range _)
      (fun c' hc' => hfill c' (List.mem_range.mp hc'))
    exact (key.1 c (List.mem_range.mpr hc)).trans
      (key.1 0 (List.mem_range.mpr h0N)).symm

theorem channels_stay_aligned_witness :
    ((Kernel.push (mkSessionEx [] [] 4 0 128) (fun _ => 0) 128
        (fun _ => [5, 6])).1.outputBuffer 1).readSpace
      = ((Kernel.push (mkSessionEx [] [] 4 0 128) (fun _ => 0) 128
        (fun _ => [5, 6])).1.outputBuffer 0).readSpace :=
  (channels_stay_aligned (mkSessionEx [] [] 4 0 128) (fun _ => 0) 128
    (fun _ => [5, 6]) (fun _ => 0) 128
    (fun _ _ => rfl) (fun _ _ => rfl) (fun _ _ => rfl) (fun _ _ => rfl)).1
    1 (by decide)

/-- **C9**: construction fails for every non-positive sample rate or
channel count and succeeds for all positive ones; every ratio setter
rejects a non-positive value synchronously (an error is returned and no
state is produced). -/
theorem construction_and_setter_validation (sr cc : ℤ) (hq : Bool)
    (bs : ℕ) (pad delay : ℚ → ℚ → ℚ → ℕ)
    (s : Kernel.RealtimeRubberBand) (v : ℚ) (hv : v ≤ 0) :
    ((sr ≤ 0 ∨ cc ≤ 0) → (Kernel.mk sr cc hq bs pad delay).isOk = false) ∧
    (0 < sr → 0 < cc → (Kernel.mk sr cc hq bs pad delay).isOk = true) ∧
    (Kernel.setTempo s v).isOk = false ∧
    (Kernel.setPitch s v).isOk = false ∧
    (Kernel.setFormantScale s v).isOk = false := by
  refine ⟨?_, ?_, ?_, ?_, ?_⟩
  · rintro (h | h)
    · simp [Kernel.mk, h, Except.isOk, Except.toBool]
    · by_cases h1 : sr ≤ 0 <;>
        simp [Kernel.mk, h1, h, Except.isOk, Except.toBool]
  · intro h1 h2
    simp [Kernel.mk, not_le.mpr h1, not_le.mpr h2, Except.isOk,
      Except.toBool]
  · simp [Kernel.setTempo, hv, Except.isOk, Except.toBool]
  · simp [Kernel.setPitch, hv, Except.isOk, Except.toBool]
  · simp [Kernel.setFormantScale, hv, Except.isOk, Except.toBool]

/-- Witness for C9: a valid construction succeeds. -/
theorem construction_and_setter_validation_witness :
    (Kernel.mk 48000 2 false 4 (fun _ _ _ => 0) (fun _ _ _ => 0)).isOk
      = true :=
  (construction_and_setter_validation 48000 2 false 4
    (fun _ _ _ => 0) (fun _ _ _ => 0) (mkSessionEx [] [] 4 0 0) 0
    (by norm_num)).2.1 (by norm_num) (by norm_num)

/-- `setTempo` never fails on a positive argument. -/
lemma setTempo_ok_of_pos (k : Kernel.RealtimeRubberBand) (r : ℚ)
    (hr : 0 < r) : ∃ p, Kernel.setTempo k r = .ok p := by
  by_cases heq : k.stretcher.getTimeRatio = r
  · exact ⟨(k, []), setTempo_noop k r hr heq⟩
  · obtain ⟨hok, -⟩ := setTempo_apply_of_ne k r hr heq
    cases hcase : Kernel.setTempo k r with
    | ok p => exact ⟨p, rfl⟩
    | error e =>
      rw [hcase] at hok
      simp [Except.isOk, Except.toBool] at hok

/-- Whatever branch `setTempo` takes on a positive argument, the engine
ends holding exactly that argument as its time ratio. -/
lemma setTempo_result_ratio (k : Kernel.RealtimeRubberBand) (r : ℚ)
    (hr : 0 < r) (p : Kernel.RealtimeRubberBand × List EngineCall)
    (hp : Kernel.setTempo k r = .ok p) :
    p.1.stretcher.engineTimeRatio = r := by
  by_cases heq : k.stretcher.getTimeRatio = r
  · rw [setTempo_noop k r hr heq] at hp
    obtain rfl := (Except.ok.inj hp).symm
    exact heq
  · obtain ⟨-, hall⟩ := setTempo_apply_of_ne k r hr heq
    exact (hall p.1 p.2 (by rw [hp])).2.2.2.2.1

lemma worklet_mk_some_tempo (bs : ℕ) (pad delay : ℚ → ℚ → ℚ → ℕ)
    (sr cc : ℤ) (t : ℚ) (hsr : 0 < sr) (hcc : 0 < cc)
    (ht0 : t ≠ 0) (ht1 : t ≠ 1)
    (p : Kernel.RealtimeRubberBand × List EngineCall)
    (hp : Kernel.setTempo
      (Kernel.setMaxProcessSize
        (Kernel.mkUnchecked sr.toNat cc.toNat bs pad delay)
        Worklet.RENDER_QUANTUM_FRAMES).1 (1 / t) = .ok p) :
    Worklet.mk bs pad delay sr cc
      (some { highQuality := none, pitch := none, tempo := some t })
      = .ok ({ highQuality := false
               channelCount := cc.toNat
               kernel := p.1
               inputHeap := fun _ => 0
               outputHeap := fun _ => 0
               tempo := t
               pitch := 1 },
             (Kernel.setMaxProcessSize
               (Kernel.mkUnchecked sr.toNat cc.toNat bs pad delay)
               Worklet.RENDER_QUANTUM_FRAMES).2 ++ p.2) := by
  simp only [Worklet.mk, Kernel.mk, if_neg (not_le.mpr hsr),
    if_neg (not_le.mpr hcc), Option.bind, Worklet.jsOrQ, Option.getD,
    bind, Except.bind, if_pos (And.intro ht0 ht1), hp, if_neg ht0]

/-- **C10**: the wrapper's `timeRatio` setter stores `r` and passes the
reciprocal `1 / r` to the kernel's `setTempo` (the engine ends holding
`1 / r`); the constructor does the same for a truthy non-default `tempo`
option; the `timeRatio` getter returns the last stored `r`, not the
kernel's internal ratio. -/
theorem worklet_timeRatio_reciprocal (w : Worklet.RealtimeRubberBand)
    (r : ℚ) (hr : 0 < r) (bs : ℕ) (pad delay : ℚ → ℚ → ℚ → ℕ)
    (sr cc : ℤ) (t : ℚ) (hsr : 0 < sr) (hcc : 0 < cc) (ht : 0 < t)
    (ht1 : t ≠ 1) :
    (Worklet.setTimeRatio w r).isOk = true ∧
    (∀ w' tr, Worklet.setTimeRatio w r = .ok (w', tr) →
      Worklet.timeRatio w' = r ∧
      w'.kernel.stretcher.engineTimeRatio = 1 / r) ∧
    (Worklet.mk bs pad delay sr cc
      (some { highQuality := none, pitch := none, tempo := some t })).isOk
        = true ∧
    (∀ w0 tr0, Worklet.mk bs pad delay sr cc
        (some { highQuality := none, pitch := none, tempo := some t })
          = .ok (w0, tr0) →
      Worklet.timeRatio w0 = t ∧
      w0.kernel.stretcher.engineTimeRatio = 1 / t) := by
  have hinv : 0 < 1 / r := by positivity
  have ht0 : t ≠ 0 := ne_of_gt ht
  have hinvt : 0 < 1 / t := by positivity
  obtain ⟨p, hp⟩ := setTempo_ok_of_pos w.kernel (1 / r) hinv
  have hps : Worklet.setTimeRatio w r
      = .ok ({ { w with tempo := r } with kernel := p.1 }, p.2) := by
    simp only [Worklet.setTimeRatio]
    rw [hp]
  obtain ⟨p2, hp2⟩ := setTempo_ok_of_pos
    (Kernel.setMaxProcessSize
      (Kernel.mkUnchecked sr.toNat cc.toNat bs pad delay)
      Worklet.RENDER_QUANTUM_FRAMES).1 (1 / t) hinvt
  have hmk := worklet_mk_some_tempo bs pad delay sr cc t hsr hcc
    ht0 ht1 p2 hp2
  refine ⟨by rw [hps]; rfl, ?_, by rw [hmk]; rfl, ?_⟩
  · intro w' tr h
    rw [hps] at h
    obtain ⟨h1, h2⟩ := Prod.mk.injEq .. ▸ Except.ok.inj h
    subst h1
    exact ⟨rfl, setTempo_result_ratio w.kernel (1 / r) hinv p hp⟩
  · intro w0 tr0 h
    rw [hmk] at h
    obtain ⟨h1, h2⟩ := Prod.mk.injEq .. ▸ Except.ok.inj h
    subst h1
    exact ⟨rfl, setTempo_result_ratio _ (1 / t) hinvt p2 hp2⟩

/-- Witness for C10 at a concrete wrapper: setting `timeRatio` to `2`
succeeds (the kernel receives `1 / 2`). -/
theorem worklet_timeRatio_reciprocal_witness :
    (Worklet.setTimeRatio (mkWrapperEx []) 2).isOk = true :=
  (worklet_timeRatio_reciprocal (mkWrapperEx []) 2 (by norm_num) 4
    (fun _ _ _ => 0) (fun _ _ _ => 0) 48000 2 2 (by norm_num)
    (by norm_num) (by norm_num) (by norm_num)).1

end RubberBandWeb
